import Mathlib

/-!
IOHIDEventQueue: capacity negotiation, admission control and error accounting

A shallow embedding of `IOHIDFamily/IOHIDEventQueue.cpp`.

* `UInt32` values are natural numbers; the one place where 32-bit wraparound can
  happen (`numEntries * entrySize`) is reduced modulo `2 ^ 32` explicitly, and the
  64-bit error counter is incremented modulo `2 ^ 64`.
* The constants of `IOHIDEventQueue.h` (capacity bounds, state bits) are not part of
  the translated file; they are the fields of `Consts`.
* The base class `IOSharedDataQueue` (ring allocation, raw enqueue, notification) is an
  external collaborator; its behaviour is the parameter `Env`.
* Calls into collaborators are recorded, in program order, in a list of `Call`s, so that
  "the ring is never touched" or "one notification is sent" are statements about data.
-/

namespace HIDQueue

/-- Largest value of a `UInt32`. -/
def UINT32_MAX : Nat := 4294967295

/-- Number of values of the 64-bit error counter; `_enqueueErrorCount++` is addition
modulo this number. -/
def UINT64_MOD : Nat := 18446744073709551616

/-- Constants declared in `IOHIDEventQueue.h`, which the translated file only uses. -/
structure Consts where
  HID_QUEUE_CAPACITY_MIN : Nat
  HID_QUEUE_CAPACITY_MAX_ENTITLED : Nat
  kHIDQueueStarted : Nat
  kHIDQueueDisabled : Nat
deriving DecidableEq, Repr

/-- The state constants are two different single bits: bit `a` is Started and
bit `b` is Disabled. -/
def Consts.StateBits (c : Consts) (a b : Nat) : Prop :=
  c.kHIDQueueStarted = 2 ^ a ∧ c.kHIDQueueDisabled = 2 ^ b ∧ a ≠ b

/-- The behaviour of the collaborators of the queue: the object allocator and the
base class `IOSharedDataQueue`, whose ring state is a value of type `R`. -/
structure Env (R : Type) where
  /-- Whether `new IOHIDEventQueue` yields an object. -/
  newQueue : Bool
  /-- The base class `initWithCapacity(size)`: `none` when it returns false. -/
  initWithCapacity : Nat → Option R
  /-- The base class `enqueue(data, dataSize)`: its result and the ring afterwards. -/
  enqueue : R → List Nat → Nat → Bool × R
  /-- The field `dataQueue->head`. -/
  head : R → Nat
  /-- The field `dataQueue->tail`. -/
  tail : R → Nat
  /-- The field `_reserved->queueSize`. -/
  queueSize : R → Nat

/-- The ring engine records the size it was initialised with as its queue size. -/
def Env.RecordsCapacity {R : Type} (env : Env R) : Prop :=
  ∀ size r, env.initWithCapacity size = some r → env.queueSize r = size

/-- Calls made into collaborators and writes to the error counter, in program order. -/
inductive Call where
  | newQueue
  | initWithCapacity (size : Nat)
  | release
  | superEnqueue (data : List Nat) (dataSize : Nat)
  | incrementEnqueueErrorCount
  | sendDataAvailableNotification
deriving DecidableEq, Repr

/-- The object: the ring owned through the base class, and the fields of the subclass. -/
structure IOHIDEventQueue (R : Type) where
  ring : R
  _state : Nat
  _numEntries : Nat
  _entrySize : Nat
  _enqueueErrorCount : Nat
deriving DecidableEq, Repr

/-- The one way execution can leave defined behaviour in this file. -/
inductive Fault where
  | divideByZero
deriving DecidableEq, Repr

/-- `IOHIDEventQueue::withCapacity`. A freshly allocated object has all its fields zero.
Returns the queue (or null) together with the calls made. -/
def withCapacity {R : Type} (env : Env R) (size : Nat) :
    Option (IOHIDEventQueue R) × List Call :=
  if env.newQueue then
    match env.initWithCapacity size with
    | some r =>
      (some { ring := r, _state := 0, _numEntries := 0, _entrySize := 0,
              _enqueueErrorCount := 0 },
       [Call.newQueue, Call.initWithCapacity size])
    | none => (none, [Call.newQueue, Call.initWithCapacity size, Call.release])
  else (none, [Call.newQueue])

/-- `IOHIDEventQueue::withEntries`. The product is computed in 32 bits; the guard
divides by `entrySize`, which faults when `entrySize` is zero. -/
def withEntries {R : Type} (c : Consts) (env : Env R) (numEntries entrySize : Nat) :
    Except Fault (Option (IOHIDEventQueue R) × List Call) :=
  let size := (numEntries * entrySize) % 2 ^ 32
  if entrySize = 0 then Except.error Fault.divideByZero
  else if numEntries > UINT32_MAX / entrySize then Except.ok (none, [])
  else
    let size := if size < c.HID_QUEUE_CAPACITY_MIN then c.HID_QUEUE_CAPACITY_MIN else size
    let size :=
      if size > c.HID_QUEUE_CAPACITY_MAX_ENTITLED then c.HID_QUEUE_CAPACITY_MAX_ENTITLED
      else size
    match withCapacity env size with
    | (some queue, calls) =>
      Except.ok (some { queue with _numEntries := numEntries, _entrySize := entrySize },
                 calls)
    | (none, calls) => Except.ok (none, calls)

/-- What one call of `enqueue` produces: the returned Boolean, the object afterwards and
the calls made. -/
structure EnqueueResult (R : Type) where
  ret : Bool
  queue : IOHIDEventQueue R
  calls : List Call
deriving DecidableEq, Repr

/-- `IOHIDEventQueue::enqueue`. -/
def enqueue {R : Type} (c : Consts) (env : Env R) (q : IOHIDEventQueue R)
    (data : List Nat) (dataSize : Nat) : EnqueueResult R :=
  if (q._state &&& (c.kHIDQueueStarted ||| c.kHIDQueueDisabled)) = c.kHIDQueueStarted then
    match env.enqueue q.ring data dataSize with
    | (false, r) =>
      { ret := false
        queue := { q with ring := r
                          _enqueueErrorCount := (q._enqueueErrorCount + 1) % UINT64_MOD }
        calls := [Call.superEnqueue data dataSize, Call.incrementEnqueueErrorCount,
                  Call.sendDataAvailableNotification] }
    | (true, r) =>
      { ret := true, queue := { q with ring := r }
        calls := [Call.superEnqueue data dataSize] }
  else { ret := true, queue := q, calls := [] }

/-- An `OSNumber`: a value and its width in bits. -/
structure OSNumber where
  value : Nat
  bits : Nat
deriving DecidableEq, Repr

/-- `OSNumber::withNumber(value, bits)` keeps the low `bits` bits of the value. -/
def OSNumber.withNumber (value bits : Nat) : OSNumber :=
  { value := value % 2 ^ bits, bits := bits }

/-- An `OSDictionary` of numbers, as its key/value pairs in insertion order. -/
abbrev OSDictionary := List (String × OSNumber)

/-- `OSDictionary::setObject`: replaces the value of a key already present, otherwise
adds the pair. -/
def OSDictionary.setObject (dict : OSDictionary) (key : String) (num : OSNumber) :
    OSDictionary :=
  if dict.any (fun p => p.1 == key) then
    dict.map (fun p => if p.1 == key then (key, num) else p)
  else dict ++ [(key, num)]

/-- The serialization context and the allocator, as seen by one call of `serialize`. -/
structure OSSerialize where
  /-- The answer of `previouslySerialized(this)`. -/
  previouslySerialized : Bool
  /-- Whether `OSDictionary::withCapacity(2)` yields a dictionary. -/
  dictWithCapacity : Bool
  /-- Whether the `OSNumber` for a given key can be allocated. -/
  numberAllocated : String → Bool
  /-- The result of `dict->serialize(serializer)`. -/
  dictSerialize : OSDictionary → Bool

/-- One step of `serialize`: allocate the number and, if that worked, store it. -/
def setNumber (s : OSSerialize) (dict : OSDictionary) (key : String) (value bits : Nat) :
    OSDictionary :=
  if s.numberAllocated key then dict.setObject key (OSNumber.withNumber value bits)
  else dict

/-- `IOHIDEventQueue::serialize`, a `const` method: the returned Boolean and the
dictionary handed to the serializer, if one was built. -/
def serialize {R : Type} (env : Env R) (q : IOHIDEventQueue R) (s : OSSerialize) :
    Bool × Option OSDictionary :=
  if s.previouslySerialized then (true, none)
  else if s.dictWithCapacity then
    let dict : OSDictionary := []
    let dict := setNumber s dict "head" (env.head q.ring) 32
    let dict := setNumber s dict "tail" (env.tail q.ring) 32
    let dict := setNumber s dict "EnqueueErrorCount" q._enqueueErrorCount 64
    let dict := setNumber s dict "QueueSize" (env.queueSize q.ring) 64
    let dict := setNumber s dict "numEntries" q._numEntries 64
    let dict := setNumber s dict "entrySize" q._entrySize 64
    (s.dictSerialize dict, some dict)
  else (false, none)

/-! ## Reference definitions following the specification -/

/-- Clamping as the specification words it: below to `lo`, above to `hi`. -/
def clamp (x lo hi : Nat) : Nat :=
  if x < lo then lo else if hi < x then hi else x

/-! ## Sequences of operations on one queue -/

/-- What can happen to a queue after construction: a submit, a describe, or a change of
the state word made from outside (start, stop, enable, disable). -/
inductive Op where
  | submit (data : List Nat) (dataSize : Nat)
  | describe (s : OSSerialize)
  | setState (state : Nat)

/-- The queue after one operation. -/
def step {R : Type} (c : Consts) (env : Env R) (q : IOHIDEventQueue R) :
    Op → IOHIDEventQueue R
  | Op.submit data dataSize => (enqueue c env q data dataSize).queue
  | Op.describe _ => q
  | Op.setState state => { q with _state := state }

/-- Whether the operation is a submit that returns false on this queue. -/
def rejected {R : Type} (c : Consts) (env : Env R) (q : IOHIDEventQueue R) : Op → Bool
  | Op.submit data dataSize => !(enqueue c env q data dataSize).ret
  | _ => false

/-- The queue after a sequence of operations. -/
def run {R : Type} (c : Consts) (env : Env R) (q : IOHIDEventQueue R) :
    List Op → IOHIDEventQueue R
  | [] => q
  | op :: ops => run c env (step c env q op) ops

/-- The number of submit calls of a sequence that return false. -/
def rejections {R : Type} (c : Consts) (env : Env R) (q : IOHIDEventQueue R) :
    List Op → Nat
  | [] => 0
  | op :: ops =>
    (if rejected c env q op then 1 else 0) + rejections c env (step c env q op) ops

/-! ## A concrete instance, for evaluating the definitions -/

/-- A choice of the header constants: 16 KiB and 3 MiB bounds, state bits 0 and 1. -/
def sampleConsts : Consts :=
  { HID_QUEUE_CAPACITY_MIN := 16384, HID_QUEUE_CAPACITY_MAX_ENTITLED := 3145728,
    kHIDQueueStarted := 1, kHIDQueueDisabled := 2 }

/-- A small ring: its size and the bytes in use. -/
structure SampleRing where
  queueSize : Nat
  used : Nat
deriving DecidableEq, Repr

/-- An engine over `SampleRing`: initialisation succeeds up to `limit` bytes, and an
entry is accepted when it fits in the free space. -/
def sampleEnv (newQueue : Bool) (limit : Nat) : Env SampleRing :=
  { newQueue := newQueue
    initWithCapacity := fun size =>
      if size ≤ limit then some { queueSize := size, used := 0 } else none
    enqueue := fun r _ dataSize =>
      if r.used + dataSize ≤ r.queueSize then (true, { r with used := r.used + dataSize })
      else (false, r)
    head := fun _ => 0
    tail := fun r => r.used
    queueSize := fun r => r.queueSize }

/-! ## Further definitions for introspection and for the order of check and product -/

/-- The ring engine never changes the size it recorded at initialisation when it
enqueues. -/
def Env.PreservesCapacity {R : Type} (env : Env R) : Prop :=
  ∀ r data dataSize, env.queueSize (env.enqueue r data dataSize).2 = env.queueSize r

/-- The six numbers `serialize` stores, under their keys, in the order of the stores. -/
def fullRecord {R : Type} (env : Env R) (q : IOHIDEventQueue R) : OSDictionary :=
  [("head", OSNumber.withNumber (env.head q.ring) 32),
   ("tail", OSNumber.withNumber (env.tail q.ring) 32),
   ("EnqueueErrorCount", OSNumber.withNumber q._enqueueErrorCount 64),
   ("QueueSize", OSNumber.withNumber (env.queueSize q.ring) 64),
   ("numEntries", OSNumber.withNumber q._numEntries 64),
   ("entrySize", OSNumber.withNumber q._entrySize 64)]

/-- Modelled from the spec: the de-duplication contract of the serialization context
(`OSSerialize::previouslySerialized` belongs to the kernel, not to the translated file).
The context keeps the identities of the objects it has captured; asked about an object it
answers whether it has captured it already, and captures it if not. -/
def previouslySerialized (tags : List Nat) (object : Nat) : Bool × List Nat :=
  if object ∈ tags then (true, tags) else (false, tags ++ [object])

/-- One call of `serialize` on the queue with identity `self` inside a context whose
captured objects are `tags`. The allocator outcomes of the call are those of `s`, and
`captured` are the identities `dict->serialize` adds to the context when a dictionary is
handed to it. Returns the result of `serialize` and the captured objects afterwards. -/
def serializeIn {R : Type} (env : Env R) (q : IOHIDEventQueue R) (self : Nat)
    (tags : List Nat) (s : OSSerialize) (captured : List Nat) :
    (Bool × Option OSDictionary) × List Nat :=
  let answer := previouslySerialized tags self
  let out := serialize env q { s with previouslySerialized := answer.1 }
  (out, if out.2.isSome then answer.2 ++ captured else answer.2)

/-- A reference for `withEntries` that follows the specification: the guard is checked
first and only then is the product formed, exactly, before the same two tests. -/
def withEntriesCheckFirst {R : Type} (c : Consts) (env : Env R) (numEntries entrySize : Nat) :
    Except Fault (Option (IOHIDEventQueue R) × List Call) :=
  if entrySize = 0 then Except.error Fault.divideByZero
  else if numEntries > UINT32_MAX / entrySize then Except.ok (none, [])
  else
    let size := numEntries * entrySize
    let size := if size < c.HID_QUEUE_CAPACITY_MIN then c.HID_QUEUE_CAPACITY_MIN else size
    let size :=
      if size > c.HID_QUEUE_CAPACITY_MAX_ENTITLED then c.HID_QUEUE_CAPACITY_MAX_ENTITLED
      else size
    match withCapacity env size with
    | (some queue, calls) =>
      Except.ok (some { queue with _numEntries := numEntries, _entrySize := entrySize },
                 calls)
    | (none, calls) => Except.ok (none, calls)

/-- Whether an operation is a submit. -/
def Op.isSubmit : Op → Bool
  | Op.submit _ _ => true
  | _ => false

/-- A call of `serialize` in which nothing was captured before and every allocation
succeeds. -/
def freshSerialize : OSSerialize :=
  { previouslySerialized := false, dictWithCapacity := true
    numberAllocated := fun _ => true, dictSerialize := fun _ => true }

/-- A call of `serialize` in which the number for one key cannot be allocated. -/
def serializeWithout (key : String) : OSSerialize :=
  { previouslySerialized := false, dictWithCapacity := true
    numberAllocated := fun k => k != key, dictSerialize := fun _ => true }

/-- A call of `serialize` in which the dictionary cannot be allocated. -/
def serializeNoDictionary : OSSerialize :=
  { previouslySerialized := false, dictWithCapacity := false
    numberAllocated := fun _ => true, dictSerialize := fun _ => true }

/-! ## Auxiliary facts -/

/-- The guard of `withEntries` trips exactly when the exact product is too large. -/
theorem guard_iff_product_exceeds (n e : Nat) (he : 0 < e) :
    n > UINT32_MAX / e ↔ UINT32_MAX < n * e := by
  show UINT32_MAX / e < n ↔ UINT32_MAX < n * e
  exact Nat.div_lt_iff_lt_mul he

/-- A product within range is not changed by the reduction to 32 bits. -/
theorem product_mod_eq (n e : Nat) (h : n * e ≤ UINT32_MAX) :
    (n * e) % 2 ^ 32 = n * e := by
  apply Nat.mod_eq_of_lt
  have : UINT32_MAX < 2 ^ 32 := by unfold UINT32_MAX; norm_num
  omega

/-- The two successive tests of `withEntries` compute `clamp` when the bounds are
ordered. -/
theorem two_tests_eq_clamp (x lo hi : Nat) (h : lo ≤ hi) :
    (if (if x < lo then lo else x) > hi then hi else (if x < lo then lo else x))
      = clamp x lo hi := by
  unfold clamp
  split_ifs <;> omega

/-- The masked comparison of `enqueue` holds exactly when the Started bit is set and the
Disabled bit is clear. -/
theorem masked_state_iff (state a b : Nat) (hab : a ≠ b) :
    (state &&& (2 ^ a ||| 2 ^ b)) = 2 ^ a ↔
      state.testBit a = true ∧ state.testBit b = false := by
  constructor
  · intro h
    have ha := congrArg (fun x => Nat.testBit x a) h
    have hb := congrArg (fun x => Nat.testBit x b) h
    simp only [Nat.testBit_and, Nat.testBit_or, Nat.testBit_two_pow] at ha hb
    have hba : ¬ b = a := fun hh => hab hh.symm
    simp [hab, hba] at ha hb
    exact ⟨ha, hb⟩
  · rintro ⟨ha, hb⟩
    apply Nat.eq_of_testBit_eq
    intro i
    simp only [Nat.testBit_and, Nat.testBit_or, Nat.testBit_two_pow]
    by_cases hai : a = i
    · subst hai
      simp [ha]
    · by_cases hbi : b = i
      · subst hbi
        simp [hb, hai]
      · simp [hai, hbi]

/-- The admission test of `enqueue`, in terms of the two state bits. -/
theorem admission_test_iff (c : Consts) (a b state : Nat) (hbits : c.StateBits a b) :
    (state &&& (c.kHIDQueueStarted ||| c.kHIDQueueDisabled)) = c.kHIDQueueStarted ↔
      state.testBit a = true ∧ state.testBit b = false := by
  obtain ⟨hs, hd, hab⟩ := hbits
  rw [hs, hd]
  exact masked_state_iff state a b hab

/-- The sample constants use bit 0 for Started and bit 1 for Disabled. -/
theorem sampleConsts_stateBits : sampleConsts.StateBits 0 1 := by
  refine ⟨?_, ?_, ?_⟩ <;> decide

/-- The sample engine records the requested size. -/
theorem sampleEnv_recordsCapacity (newQueue : Bool) (limit : Nat) :
    (sampleEnv newQueue limit).RecordsCapacity := by
  intro size r h
  simp only [sampleEnv] at h
  split_ifs at h
  cases h
  rfl

/-! ## Capacity negotiation -/

/-- What `withCapacity` does when the object and the ring can both be allocated. -/
theorem withCapacity_of_init {R : Type} (env : Env R) (size : Nat) (r : R)
    (hnew : env.newQueue = true) (hinit : env.initWithCapacity size = some r) :
    withCapacity env size =
      (some { ring := r, _state := 0, _numEntries := 0, _entrySize := 0,
              _enqueueErrorCount := 0 },
       [Call.newQueue, Call.initWithCapacity size]) := by
  simp [withCapacity, hnew, hinit]

/-- What `withEntries` does once its guard has passed: it hands the clamped product to
`withCapacity`. -/
theorem withEntries_of_guard {R : Type} (c : Consts) (env : Env R) (n e : Nat)
    (he : 0 < e) (hprod : n * e ≤ UINT32_MAX)
    (hpol : c.HID_QUEUE_CAPACITY_MIN ≤ c.HID_QUEUE_CAPACITY_MAX_ENTITLED) :
    withEntries c env n e =
      match withCapacity env
          (clamp (n * e) c.HID_QUEUE_CAPACITY_MIN c.HID_QUEUE_CAPACITY_MAX_ENTITLED) with
      | (some queue, calls) =>
        Except.ok (some { queue with _numEntries := n, _entrySize := e }, calls)
      | (none, calls) => Except.ok (none, calls) := by
  have hguard : ¬ n > UINT32_MAX / e := by
    rw [guard_iff_product_exceeds n e he]
    omega
  have he0 : e ≠ 0 := by omega
  simp only [withEntries, he0, hguard, if_false, product_mod_eq n e hprod]
  rw [two_tests_eq_clamp (n * e) _ _ hpol]

/-- C1: for `numEntries > 0` and `entrySize > 0` whose exact product fits in 32 bits,
when the object can be allocated and the ring initialisation succeeds, `withEntries`
returns a queue; the size handed to the ring initialisation, and hence the capacity the
ring records, is `clamp (numEntries * entrySize) MIN MAX_ENTITLED`. -/
theorem withEntries_capacity {R : Type} (c : Consts) (env : Env R) (n e : Nat) (r : R)
    (_hn : 0 < n) (he : 0 < e) (hprod : n * e ≤ UINT32_MAX)
    (hpol : c.HID_QUEUE_CAPACITY_MIN ≤ c.HID_QUEUE_CAPACITY_MAX_ENTITLED)
    (hnew : env.newQueue = true)
    (hinit : env.initWithCapacity
      (clamp (n * e) c.HID_QUEUE_CAPACITY_MIN c.HID_QUEUE_CAPACITY_MAX_ENTITLED) = some r)
    (hrec : env.RecordsCapacity) :
    ∃ q : IOHIDEventQueue R,
      withEntries c env n e =
        Except.ok (some q, [Call.newQueue, Call.initWithCapacity
          (clamp (n * e) c.HID_QUEUE_CAPACITY_MIN c.HID_QUEUE_CAPACITY_MAX_ENTITLED)]) ∧
      q.ring = r ∧
      env.queueSize q.ring =
        clamp (n * e) c.HID_QUEUE_CAPACITY_MIN c.HID_QUEUE_CAPACITY_MAX_ENTITLED := by
  rw [withEntries_of_guard c env n e he hprod hpol, withCapacity_of_init env _ r hnew hinit]
  exact ⟨_, rfl, rfl, hrec _ r hinit⟩

/-- Witness for C1: five entries of sixteen bytes give a queue of the minimum size. -/
theorem withEntries_capacity_witness :
    ∃ q : IOHIDEventQueue SampleRing,
      withEntries sampleConsts (sampleEnv true UINT32_MAX) 5 16 =
        Except.ok (some q, [Call.newQueue, Call.initWithCapacity (clamp (5 * 16) 16384 3145728)]) ∧
      q.ring = { queueSize := 16384, used := 0 } ∧
      (sampleEnv true UINT32_MAX).queueSize q.ring = clamp (5 * 16) 16384 3145728 :=
  withEntries_capacity sampleConsts (sampleEnv true UINT32_MAX) 5 16
    { queueSize := 16384, used := 0 } (by decide) (by decide) (by decide) (by decide) rfl
    (by decide) (sampleEnv_recordsCapacity true UINT32_MAX)

/-- C2: when `entrySize > 0` and the exact product exceeds `UINT32_MAX`, `withEntries`
returns null and makes no call at all: no object is allocated, `withCapacity` is not
reached and no ring is initialised. -/
theorem withEntries_overflow {R : Type} (c : Consts) (env : Env R) (n e : Nat)
    (he : 0 < e) (hov : UINT32_MAX < n * e) :
    withEntries c env n e = Except.ok (none, []) := by
  have hguard : n > UINT32_MAX / e := (guard_iff_product_exceeds n e he).mpr hov
  have he0 : e ≠ 0 := by omega
  simp [withEntries, he0, hguard]

/-- Witness for C2: 65536 entries of 65536 bytes, whose 32-bit product wraps to zero. -/
theorem withEntries_overflow_witness :
    withEntries sampleConsts (sampleEnv true UINT32_MAX) 65536 65536 = Except.ok (none, []) :=
  withEntries_overflow sampleConsts (sampleEnv true UINT32_MAX) 65536 65536
    (by decide) (by decide)

/-- C3, as stated, fails: with a minimum of 16384 bytes, `withCapacity 0` yields a queue
whose ring was initialised with, and records, zero bytes, and `withCapacity` of one byte
more than the maximum yields that size unclamped. -/
theorem withCapacity_not_clamped :
    (withCapacity (sampleEnv true UINT32_MAX) 0).1 =
        some { ring := { queueSize := 0, used := 0 }, _state := 0, _numEntries := 0,
               _entrySize := 0, _enqueueErrorCount := 0 } ∧
      (0 : Nat) ≠ clamp 0 sampleConsts.HID_QUEUE_CAPACITY_MIN
        sampleConsts.HID_QUEUE_CAPACITY_MAX_ENTITLED ∧
      (withCapacity (sampleEnv true UINT32_MAX) 3145729).1 =
        some { ring := { queueSize := 3145729, used := 0 }, _state := 0, _numEntries := 0,
               _entrySize := 0, _enqueueErrorCount := 0 } ∧
      (3145729 : Nat) ≠ clamp 3145729 sampleConsts.HID_QUEUE_CAPACITY_MIN
        sampleConsts.HID_QUEUE_CAPACITY_MAX_ENTITLED := by
  refine ⟨?_, ?_, ?_, ?_⟩ <;> decide

/-- C3, amended: when the object can be allocated and the ring initialisation succeeds,
`withCapacity` yields a queue whose ring was initialised with exactly the requested size,
without any clamping, and whose other fields are zero; the capacity the ring records is
the requested size. -/
theorem withCapacity_capacity {R : Type} (env : Env R) (size : Nat) (r : R)
    (hnew : env.newQueue = true) (hinit : env.initWithCapacity size = some r)
    (hrec : env.RecordsCapacity) :
    withCapacity env size =
        (some { ring := r, _state := 0, _numEntries := 0, _entrySize := 0,
                _enqueueErrorCount := 0 },
         [Call.newQueue, Call.initWithCapacity size]) ∧
      env.queueSize r = size :=
  ⟨withCapacity_of_init env size r hnew hinit, hrec size r hinit⟩

/-- Witness for the amended C3: a request of zero bytes gives a ring of zero bytes. -/
theorem withCapacity_capacity_witness :
    withCapacity (sampleEnv true UINT32_MAX) 0 =
        (some { ring := { queueSize := 0, used := 0 }, _state := 0, _numEntries := 0,
                _entrySize := 0, _enqueueErrorCount := 0 },
         [Call.newQueue, Call.initWithCapacity 0]) ∧
      (sampleEnv true UINT32_MAX).queueSize { queueSize := 0, used := 0 } = 0 :=
  withCapacity_capacity (sampleEnv true UINT32_MAX) 0 { queueSize := 0, used := 0 } rfl
    (by decide) (sampleEnv_recordsCapacity true UINT32_MAX)

/-! ## Admission and overflow -/

/-- C4: `enqueue` returns false exactly when the Started bit is set, the Disabled bit is
clear and the ring engine rejects the event; in every other case it returns true. -/
theorem enqueue_false_iff {R : Type} (c : Consts) (env : Env R) (q : IOHIDEventQueue R)
    (data : List Nat) (dataSize a b : Nat) (hbits : c.StateBits a b) :
    ((enqueue c env q data dataSize).ret = false ↔
        q._state.testBit a = true ∧ q._state.testBit b = false ∧
          (env.enqueue q.ring data dataSize).1 = false) ∧
      ((enqueue c env q data dataSize).ret = true ↔
        ¬ (q._state.testBit a = true ∧ q._state.testBit b = false ∧
          (env.enqueue q.ring data dataSize).1 = false)) := by
  have hadm := admission_test_iff c a b q._state hbits
  have key : (enqueue c env q data dataSize).ret = false ↔
      q._state.testBit a = true ∧ q._state.testBit b = false ∧
        (env.enqueue q.ring data dataSize).1 = false := by
    unfold enqueue
    by_cases h : (q._state &&& (c.kHIDQueueStarted ||| c.kHIDQueueDisabled))
        = c.kHIDQueueStarted
    · have hb := hadm.mp h
      rw [if_pos h]
      rcases hres : env.enqueue q.ring data dataSize with ⟨ok, r⟩
      cases ok <;> simp [hb.1, hb.2]
    · rw [if_neg h]
      have hn : ¬ (q._state.testBit a = true ∧ q._state.testBit b = false) :=
        fun hh => h (hadm.mpr hh)
      constructor
      · intro hf
        simp at hf
      · rintro ⟨h1, h2, -⟩
        exact absurd ⟨h1, h2⟩ hn
  refine ⟨key, ?_⟩
  rw [← key]
  cases (enqueue c env q data dataSize).ret <;> simp

/-- Witness for C4: a started queue over a ring of zero bytes rejects a one-byte event. -/
theorem enqueue_false_iff_witness :
    ((enqueue sampleConsts (sampleEnv true 0)
          { ring := { queueSize := 0, used := 0 }, _state := 1, _numEntries := 0,
            _entrySize := 0, _enqueueErrorCount := 0 } [7] 1).ret = false ↔
        (1 : Nat).testBit 0 = true ∧ (1 : Nat).testBit 1 = false ∧
          ((sampleEnv true 0).enqueue { queueSize := 0, used := 0 } [7] 1).1 = false) ∧
      ((enqueue sampleConsts (sampleEnv true 0)
          { ring := { queueSize := 0, used := 0 }, _state := 1, _numEntries := 0,
            _entrySize := 0, _enqueueErrorCount := 0 } [7] 1).ret = true ↔
        ¬ ((1 : Nat).testBit 0 = true ∧ (1 : Nat).testBit 1 = false ∧
          ((sampleEnv true 0).enqueue { queueSize := 0, used := 0 } [7] 1).1 = false)) :=
  enqueue_false_iff sampleConsts (sampleEnv true 0)
    { ring := { queueSize := 0, used := 0 }, _state := 1, _numEntries := 0,
      _entrySize := 0, _enqueueErrorCount := 0 } [7] 1 0 1 sampleConsts_stateBits

/-- C5: when it is not the case that Started is set and Disabled is clear, whatever the
other state bits, `enqueue` returns true, leaves the whole object (ring and error counter
included) as it was and makes no call: the ring engine is not invoked and no notification
is sent. Equivalently, an event is handed to the ring engine only when Started is set and
Disabled is clear. -/
theorem enqueue_inactive {R : Type} (c : Consts) (env : Env R) (q : IOHIDEventQueue R)
    (data : List Nat) (dataSize a b : Nat) (hbits : c.StateBits a b) :
    (¬ (q._state.testBit a = true ∧ q._state.testBit b = false) →
        enqueue c env q data dataSize = { ret := true, queue := q, calls := [] }) ∧
      (∀ d n, Call.superEnqueue d n ∈ (enqueue c env q data dataSize).calls →
        q._state.testBit a = true ∧ q._state.testBit b = false) := by
  have hadm := admission_test_iff c a b q._state hbits
  constructor
  · intro hn
    have h : ¬ (q._state &&& (c.kHIDQueueStarted ||| c.kHIDQueueDisabled))
        = c.kHIDQueueStarted := fun hh => hn (hadm.mp hh)
    unfold enqueue
    rw [if_neg h]
  · intro d n hmem
    by_contra hn
    have h : ¬ (q._state &&& (c.kHIDQueueStarted ||| c.kHIDQueueDisabled))
        = c.kHIDQueueStarted := fun hh => hn (hadm.mp hh)
    unfold enqueue at hmem
    rw [if_neg h] at hmem
    simp at hmem

/-- Witness for C5: a queue that is both started and disabled (state 3, plus an unrelated
bit: state 7) skips the event. -/
theorem enqueue_inactive_witness :
    enqueue sampleConsts (sampleEnv true 0)
        { ring := { queueSize := 0, used := 0 }, _state := 7, _numEntries := 0,
          _entrySize := 0, _enqueueErrorCount := 5 } [7] 1 =
      { ret := true
        queue := { ring := { queueSize := 0, used := 0 }, _state := 7, _numEntries := 0,
                   _entrySize := 0, _enqueueErrorCount := 5 }
        calls := [] } :=
  (enqueue_inactive sampleConsts (sampleEnv true 0)
    { ring := { queueSize := 0, used := 0 }, _state := 7, _numEntries := 0,
      _entrySize := 0, _enqueueErrorCount := 5 } [7] 1 0 1 sampleConsts_stateBits).1
    (by decide)

/-- What `enqueue` does on an admitted event that the ring engine rejects. -/
theorem enqueue_of_rejected {R : Type} (c : Consts) (env : Env R) (q : IOHIDEventQueue R)
    (data : List Nat) (dataSize a b : Nat) (r : R) (hbits : c.StateBits a b)
    (hs : q._state.testBit a = true) (hd : q._state.testBit b = false)
    (hrej : env.enqueue q.ring data dataSize = (false, r)) :
    enqueue c env q data dataSize =
      { ret := false
        queue := { q with ring := r
                          _enqueueErrorCount := (q._enqueueErrorCount + 1) % UINT64_MOD }
        calls := [Call.superEnqueue data dataSize, Call.incrementEnqueueErrorCount,
                  Call.sendDataAvailableNotification] } := by
  have h := (admission_test_iff c a b q._state hbits).mpr ⟨hs, hd⟩
  unfold enqueue
  rw [if_pos h, hrej]

/-- C6: on a queue with Started set and Disabled clear whose 64-bit error counter is below
its largest value, an event the ring engine rejects makes `enqueue` call the engine, then
increase the error counter by exactly one, then send exactly one data-available
notification, and return false; nothing else of the object changes but the ring, which
is the one the engine left. -/
theorem enqueue_rejected {R : Type} (c : Consts) (env : Env R) (q : IOHIDEventQueue R)
    (data : List Nat) (dataSize a b : Nat) (r : R) (hbits : c.StateBits a b)
    (hs : q._state.testBit a = true) (hd : q._state.testBit b = false)
    (hrej : env.enqueue q.ring data dataSize = (false, r))
    (hbound : q._enqueueErrorCount + 1 < UINT64_MOD) :
    enqueue c env q data dataSize =
      { ret := false
        queue := { q with ring := r, _enqueueErrorCount := q._enqueueErrorCount + 1 }
        calls := [Call.superEnqueue data dataSize, Call.incrementEnqueueErrorCount,
                  Call.sendDataAvailableNotification] } := by
  rw [enqueue_of_rejected c env q data dataSize a b r hbits hs hd hrej,
    Nat.mod_eq_of_lt hbound]

/-- Witness for C6: a started queue over a ring of zero bytes, error count 5, rejects a
one-byte event and ends with error count 6. -/
theorem enqueue_rejected_witness :
    enqueue sampleConsts (sampleEnv true 0)
        { ring := { queueSize := 0, used := 0 }, _state := 1, _numEntries := 0,
          _entrySize := 0, _enqueueErrorCount := 5 } [7] 1 =
      { ret := false
        queue := { ring := { queueSize := 0, used := 0 }, _state := 1, _numEntries := 0,
                   _entrySize := 0, _enqueueErrorCount := 5 + 1 }
        calls := [Call.superEnqueue [7] 1, Call.incrementEnqueueErrorCount,
                  Call.sendDataAvailableNotification] } :=
  enqueue_rejected sampleConsts (sampleEnv true 0)
    { ring := { queueSize := 0, used := 0 }, _state := 1, _numEntries := 0,
      _entrySize := 0, _enqueueErrorCount := 5 } [7] 1 0 1 { queueSize := 0, used := 0 }
    sampleConsts_stateBits (by decide) (by decide) (by decide) (by decide)

/-- C7: on a queue with Started set and Disabled clear, an event the ring engine accepts
makes `enqueue` return true; the only call is the engine's enqueue (no notification is
sent by `enqueue` itself), and the object changes only in its ring, which is the one the
engine left: the error counter and every other field keep their values. -/
theorem enqueue_accepted {R : Type} (c : Consts) (env : Env R) (q : IOHIDEventQueue R)
    (data : List Nat) (dataSize a b : Nat) (r : R) (hbits : c.StateBits a b)
    (hs : q._state.testBit a = true) (hd : q._state.testBit b = false)
    (hacc : env.enqueue q.ring data dataSize = (true, r)) :
    enqueue c env q data dataSize =
      { ret := true, queue := { q with ring := r }
        calls := [Call.superEnqueue data dataSize] } := by
  have h := (admission_test_iff c a b q._state hbits).mpr ⟨hs, hd⟩
  unfold enqueue
  rw [if_pos h, hacc]

/-- Witness for C7: a started queue over a ring of eight bytes accepts a one-byte event. -/
theorem enqueue_accepted_witness :
    enqueue sampleConsts (sampleEnv true 8)
        { ring := { queueSize := 8, used := 0 }, _state := 1, _numEntries := 0,
          _entrySize := 0, _enqueueErrorCount := 5 } [7] 1 =
      { ret := true
        queue := { ring := { queueSize := 8, used := 1 }, _state := 1, _numEntries := 0,
                   _entrySize := 0, _enqueueErrorCount := 5 }
        calls := [Call.superEnqueue [7] 1] } :=
  enqueue_accepted sampleConsts (sampleEnv true 8)
    { ring := { queueSize := 8, used := 0 }, _state := 1, _numEntries := 0,
      _entrySize := 0, _enqueueErrorCount := 5 } [7] 1 0 1 { queueSize := 8, used := 1 }
    sampleConsts_stateBits (by decide) (by decide) (by decide)

/-! ## Error accounting over sequences of operations -/

/-- One operation adds one to the counter, modulo `2 ^ 64`, when it is a rejected submit,
and leaves it alone otherwise. -/
theorem step_errorCount {R : Type} (c : Consts) (env : Env R) (q : IOHIDEventQueue R)
    (op : Op) :
    (step c env q op)._enqueueErrorCount =
      (if rejected c env q op then (q._enqueueErrorCount + 1) % UINT64_MOD
       else q._enqueueErrorCount) := by
  cases op with
  | submit data dataSize =>
    simp only [step, rejected, enqueue]
    by_cases h : (q._state &&& (c.kHIDQueueStarted ||| c.kHIDQueueDisabled))
        = c.kHIDQueueStarted
    · simp only [h, if_true]
      rcases hres : env.enqueue q.ring data dataSize with ⟨ok, r⟩
      cases ok <;> simp
    · simp [h]
  | describe s => simp [step, rejected]
  | setState state => simp [step, rejected]

/-- Running a concatenation is running the two parts in turn. -/
theorem run_append {R : Type} (c : Consts) (env : Env R) (q : IOHIDEventQueue R)
    (pre post : List Op) :
    run c env q (pre ++ post) = run c env (run c env q pre) post := by
  induction pre generalizing q with
  | nil => rfl
  | cons op ops ih => exact ih (step c env q op)

/-- Rejections of a concatenation add up. -/
theorem rejections_append {R : Type} (c : Consts) (env : Env R) (q : IOHIDEventQueue R)
    (pre post : List Op) :
    rejections c env q (pre ++ post) =
      rejections c env q pre + rejections c env (run c env q pre) post := by
  induction pre generalizing q with
  | nil => simp [rejections, run]
  | cons op ops ih =>
    have h := ih (step c env q op)
    show (if rejected c env q op then 1 else 0)
        + rejections c env (step c env q op) (ops ++ post) =
      ((if rejected c env q op then 1 else 0) + rejections c env (step c env q op) ops)
        + rejections c env (run c env (step c env q op) ops) post
    rw [h]
    omega

/-- The counter after a sequence is congruent, modulo `2 ^ 64`, to the initial value plus
the number of rejections. -/
theorem run_errorCount_mod {R : Type} (c : Consts) (env : Env R) (q : IOHIDEventQueue R)
    (ops : List Op) :
    (run c env q ops)._enqueueErrorCount % UINT64_MOD =
      (q._enqueueErrorCount + rejections c env q ops) % UINT64_MOD := by
  induction ops generalizing q with
  | nil => simp [run, rejections]
  | cons op ops ih =>
    have hstep := step_errorCount c env q op
    simp only [run, rejections]
    rw [ih (step c env q op), hstep]
    by_cases hr : rejected c env q op = true
    · simp only [hr, if_true]
      rw [Nat.mod_add_mod]
      congr 1
      omega
    · simp only [hr]
      simp

/-- As long as the total stays below `2 ^ 64`, the counter after a sequence is exactly
the initial value plus the number of rejections. -/
theorem run_errorCount_exact {R : Type} (c : Consts) (env : Env R) (q : IOHIDEventQueue R)
    (ops : List Op)
    (hbound : q._enqueueErrorCount + rejections c env q ops < UINT64_MOD) :
    (run c env q ops)._enqueueErrorCount =
      q._enqueueErrorCount + rejections c env q ops := by
  induction ops generalizing q with
  | nil => simp [run, rejections]
  | cons op ops ih =>
    have hstep := step_errorCount c env q op
    simp only [run, rejections] at hbound ⊢
    by_cases hr : rejected c env q op = true
    · simp only [hr, if_true] at hstep hbound ⊢
      have h1 : (q._enqueueErrorCount + 1) % UINT64_MOD = q._enqueueErrorCount + 1 :=
        Nat.mod_eq_of_lt (by omega)
      rw [h1] at hstep
      rw [ih (step c env q op) (by rw [hstep]; omega), hstep]
      omega
    · simp only [hr] at hstep hbound ⊢
      simp only [Bool.false_eq_true, if_false] at hstep hbound ⊢
      rw [ih (step c env q op) (by rw [hstep]; omega), hstep]
      omega

/-- A sequence has at most as many rejections as it has operations. -/
theorem rejections_le_length {R : Type} (c : Consts) (env : Env R) (q : IOHIDEventQueue R)
    (ops : List Op) : rejections c env q ops ≤ ops.length := by
  induction ops generalizing q with
  | nil => simp [rejections]
  | cons op ops ih =>
    have h := ih (step c env q op)
    simp only [rejections, List.length_cons]
    split_ifs <;> omega

/-- A queue fresh from a constructor (error count zero) stays within the 64-bit range of
the counter over every sequence of fewer than `2 ^ 64` operations. -/
theorem fresh_queue_within_bound {R : Type} (c : Consts) (env : Env R)
    (q : IOHIDEventQueue R) (ops : List Op) (hzero : q._enqueueErrorCount = 0)
    (hlen : ops.length < UINT64_MOD) :
    q._enqueueErrorCount + rejections c env q ops < UINT64_MOD := by
  have h := rejections_le_length c env q ops
  omega

/-- C8: over every finite sequence of submit calls, describe calls and outside changes of
the state word that keeps the 64-bit error counter within its range (the initial value
plus the number of submit calls that returned false is below `2 ^ 64`), the counter is
never reset and never decreases at any point of the sequence, and it ends at exactly the
initial value plus the number of submit calls that returned false. -/
theorem errorCount_over_run {R : Type} (c : Consts) (env : Env R) (q : IOHIDEventQueue R)
    (pre post : List Op)
    (hbound : q._enqueueErrorCount + rejections c env q (pre ++ post) < UINT64_MOD) :
    q._enqueueErrorCount ≤ (run c env q pre)._enqueueErrorCount ∧
      (run c env q pre)._enqueueErrorCount
        ≤ (run c env q (pre ++ post))._enqueueErrorCount ∧
      (run c env q (pre ++ post))._enqueueErrorCount =
        q._enqueueErrorCount + rejections c env q (pre ++ post) := by
  have hall := run_errorCount_exact c env q (pre ++ post) hbound
  have hsplit := rejections_append c env q pre post
  have hpre := run_errorCount_exact c env q pre (by omega)
  refine ⟨by omega, by omega, hall⟩

/-- Witness for C8: on a two-byte ring with error count 5, one submit is accepted and one
rejected; then the queue is disabled (a skipped submit), described, started again, and
one more submit is rejected. The count goes 5, 6, 7. -/
theorem errorCount_over_run_witness :
    5 ≤ (run sampleConsts (sampleEnv true 2)
        { ring := { queueSize := 2, used := 0 }, _state := 1, _numEntries := 0,
          _entrySize := 0, _enqueueErrorCount := 5 }
        [Op.submit [7, 7] 2, Op.submit [7] 1])._enqueueErrorCount ∧
      (run sampleConsts (sampleEnv true 2)
        { ring := { queueSize := 2, used := 0 }, _state := 1, _numEntries := 0,
          _entrySize := 0, _enqueueErrorCount := 5 }
        ([Op.submit [7, 7] 2, Op.submit [7] 1] ++
          [Op.setState 3, Op.submit [7] 1,
           Op.describe { previouslySerialized := false, dictWithCapacity := true,
                         numberAllocated := fun _ => true, dictSerialize := fun _ => true },
           Op.setState 1, Op.submit [7] 1]))._enqueueErrorCount = 5 + 2 :=
  have h := errorCount_over_run sampleConsts (sampleEnv true 2)
    { ring := { queueSize := 2, used := 0 }, _state := 1, _numEntries := 0,
      _entrySize := 0, _enqueueErrorCount := 5 }
    [Op.submit [7, 7] 2, Op.submit [7] 1]
    [Op.setState 3, Op.submit [7] 1,
     Op.describe { previouslySerialized := false, dictWithCapacity := true,
                   numberAllocated := fun _ => true, dictSerialize := fun _ => true },
     Op.setState 1, Op.submit [7] 1] (by decide)
  ⟨h.1, h.2.2⟩

/-! ## Construction failures -/

/-- C9: with `entrySize = 0` the guard of `withEntries` divides by zero: the call does
not return null, it faults, for every `numEntries`. -/
theorem withEntries_zero_entrySize {R : Type} (c : Consts) (env : Env R) (n : Nat) :
    withEntries c env n 0 = Except.error Fault.divideByZero := by
  simp [withEntries]

/-- C10: when the ring initialisation fails, `withCapacity` returns null, having released
the object if one had been allocated; and `withEntries`, once past its guard, returns
null with the same calls, so no object carrying `numEntries` and `entrySize` exists. -/
theorem construction_fails_when_init_fails {R : Type} (c : Consts) (env : Env R)
    (size n e : Nat) (hsize : env.initWithCapacity size = none)
    (he : 0 < e) (hprod : n * e ≤ UINT32_MAX)
    (hpol : c.HID_QUEUE_CAPACITY_MIN ≤ c.HID_QUEUE_CAPACITY_MAX_ENTITLED)
    (hinit : env.initWithCapacity
      (clamp (n * e) c.HID_QUEUE_CAPACITY_MIN c.HID_QUEUE_CAPACITY_MAX_ENTITLED) = none) :
    withCapacity env size =
        (none, if env.newQueue then
                 [Call.newQueue, Call.initWithCapacity size, Call.release]
               else [Call.newQueue]) ∧
      withEntries c env n e =
        Except.ok (none, if env.newQueue then
          [Call.newQueue,
           Call.initWithCapacity
             (clamp (n * e) c.HID_QUEUE_CAPACITY_MIN c.HID_QUEUE_CAPACITY_MAX_ENTITLED),
           Call.release]
          else [Call.newQueue]) := by
  have hcap : ∀ s, env.initWithCapacity s = none →
      withCapacity env s =
        (none, if env.newQueue then [Call.newQueue, Call.initWithCapacity s, Call.release]
               else [Call.newQueue]) := by
    intro s hs
    unfold withCapacity
    cases env.newQueue <;> simp [hs]
  refine ⟨hcap size hsize, ?_⟩
  rw [withEntries_of_guard c env n e he hprod hpol, hcap _ hinit]

/-- Witness for C10: an engine that cannot initialise more than 100 bytes. -/
theorem construction_fails_when_init_fails_witness :
    withCapacity (sampleEnv true 100) 101 =
        (none, if (sampleEnv true 100).newQueue then
                 [Call.newQueue, Call.initWithCapacity 101, Call.release]
               else [Call.newQueue]) ∧
      withEntries sampleConsts (sampleEnv true 100) 5 16 =
        Except.ok (none, if (sampleEnv true 100).newQueue then
          [Call.newQueue,
           Call.initWithCapacity
             (clamp (5 * 16) sampleConsts.HID_QUEUE_CAPACITY_MIN
               sampleConsts.HID_QUEUE_CAPACITY_MAX_ENTITLED),
           Call.release]
          else [Call.newQueue]) :=
  construction_fails_when_init_fails sampleConsts (sampleEnv true 100) 101 5 16
    (by decide) (by decide) (by decide) (by decide) (by decide)

/-! ## Introspection -/

/-- When the object was not captured before and the dictionary can be allocated,
`serialize` hands to the serializer the numbers of `fullRecord` that could be allocated,
in the same order, and returns what the serializer answers. -/
theorem serialize_fresh {R : Type} (env : Env R) (q : IOHIDEventQueue R) (s : OSSerialize)
    (hfresh : s.previouslySerialized = false) (hdict : s.dictWithCapacity = true) :
    serialize env q s =
      (s.dictSerialize ((fullRecord env q).filter (fun p => s.numberAllocated p.1)),
       some ((fullRecord env q).filter (fun p => s.numberAllocated p.1))) := by
  unfold serialize
  simp only [hfresh, hdict, Bool.false_eq_true, if_false, if_true]
  cases h1 : s.numberAllocated "head" <;> cases h2 : s.numberAllocated "tail" <;>
    cases h3 : s.numberAllocated "EnqueueErrorCount" <;>
    cases h4 : s.numberAllocated "QueueSize" <;>
    cases h5 : s.numberAllocated "numEntries" <;>
    cases h6 : s.numberAllocated "entrySize" <;>
    simp [setNumber, OSDictionary.setObject, fullRecord, List.filter, h1, h2, h3, h4, h5, h6]

/-- When the context answers that the object was captured before, `serialize` returns
true and builds nothing. -/
theorem serialize_captured {R : Type} (env : Env R) (q : IOHIDEventQueue R)
    (s : OSSerialize) (h : s.previouslySerialized = true) :
    serialize env q s = (true, none) := by
  simp [serialize, h]

/-- When the dictionary cannot be allocated, `serialize` returns false and builds
nothing. -/
theorem serialize_no_dictionary {R : Type} (env : Env R) (q : IOHIDEventQueue R)
    (s : OSSerialize) (hfresh : s.previouslySerialized = false)
    (hdict : s.dictWithCapacity = false) :
    serialize env q s = (false, none) := by
  simp [serialize, hfresh, hdict]

/-- Every pair of a dictionary built by `serialize` is a pair of `fullRecord`. -/
theorem mem_fullRecord_of_serialize {R : Type} (env : Env R) (q : IOHIDEventQueue R)
    (s : OSSerialize) (dict : OSDictionary) (h : (serialize env q s).2 = some dict)
    (p : String × OSNumber) (hp : p ∈ dict) : p ∈ fullRecord env q := by
  cases hfresh : s.previouslySerialized
  · cases hdict : s.dictWithCapacity
    · rw [serialize_no_dictionary env q s hfresh hdict] at h
      cases h
    · rw [serialize_fresh env q s hfresh hdict] at h
      cases h
      exact (List.mem_filter.mp hp).1
  · rw [serialize_captured env q s hfresh] at h
    cases h

/-- The keys of `fullRecord` are pairwise different: a key has one value. -/
theorem fullRecord_value_unique {R : Type} (env : Env R) (q : IOHIDEventQueue R)
    (k : String) (v1 v2 : OSNumber) (h1 : (k, v1) ∈ fullRecord env q)
    (h2 : (k, v2) ∈ fullRecord env q) : v1 = v2 := by
  simp only [fullRecord, List.mem_cons, Prod.mk.injEq, List.mem_singleton,
    List.not_mem_nil, or_false] at h1 h2
  rcases h1 with ⟨rfl, rfl⟩ | ⟨rfl, rfl⟩ | ⟨rfl, rfl⟩ | ⟨rfl, rfl⟩ | ⟨rfl, rfl⟩ | ⟨rfl, rfl⟩ <;>
    simp at h2 <;> exact h2.symm

/-! ## What the operations leave alone -/

/-- The object after `enqueue`: the same object with, at most, another ring and another
error count. -/
theorem enqueue_queue_eq {R : Type} (c : Consts) (env : Env R) (q : IOHIDEventQueue R)
    (data : List Nat) (dataSize : Nat) :
    (enqueue c env q data dataSize).queue =
      { q with ring := (enqueue c env q data dataSize).queue.ring
               _enqueueErrorCount :=
                 (enqueue c env q data dataSize).queue._enqueueErrorCount } := by
  unfold enqueue
  by_cases h : (q._state &&& (c.kHIDQueueStarted ||| c.kHIDQueueDisabled))
      = c.kHIDQueueStarted
  · simp only [h, if_true]
    rcases hres : env.enqueue q.ring data dataSize with ⟨ok, r⟩
    cases ok <;> rfl
  · simp only [h, if_false]

/-- The ring after `enqueue` is the ring before, or the one the engine left. -/
theorem enqueue_ring {R : Type} (c : Consts) (env : Env R) (q : IOHIDEventQueue R)
    (data : List Nat) (dataSize : Nat) :
    (enqueue c env q data dataSize).queue.ring = q.ring ∨
      (enqueue c env q data dataSize).queue.ring = (env.enqueue q.ring data dataSize).2 := by
  unfold enqueue
  by_cases h : (q._state &&& (c.kHIDQueueStarted ||| c.kHIDQueueDisabled))
      = c.kHIDQueueStarted
  · simp only [h, if_true]
    rcases hres : env.enqueue q.ring data dataSize with ⟨ok, r⟩
    cases ok <;> exact Or.inr rfl
  · rw [if_neg h]
    exact Or.inl rfl

/-- With an engine that keeps its recorded size, `enqueue` keeps it too. -/
theorem enqueue_queueSize {R : Type} (c : Consts) (env : Env R) (q : IOHIDEventQueue R)
    (data : List Nat) (dataSize : Nat) (hpres : env.PreservesCapacity) :
    env.queueSize (enqueue c env q data dataSize).queue.ring = env.queueSize q.ring := by
  rcases enqueue_ring c env q data dataSize with h | h
  · rw [h]
  · rw [h]
    exact hpres q.ring data dataSize

/-- One operation keeps the sizing fields, and the recorded size when the engine does. -/
theorem step_keeps_sizing {R : Type} (c : Consts) (env : Env R) (q : IOHIDEventQueue R)
    (op : Op) (hpres : env.PreservesCapacity) :
    (step c env q op)._numEntries = q._numEntries ∧
      (step c env q op)._entrySize = q._entrySize ∧
      env.queueSize (step c env q op).ring = env.queueSize q.ring := by
  cases op with
  | submit data dataSize =>
    have h := enqueue_queue_eq c env q data dataSize
    refine ⟨?_, ?_, enqueue_queueSize c env q data dataSize hpres⟩
    · show (enqueue c env q data dataSize).queue._numEntries = q._numEntries
      rw [h]
    · show (enqueue c env q data dataSize).queue._entrySize = q._entrySize
      rw [h]
  | describe s => exact ⟨rfl, rfl, rfl⟩
  | setState state => exact ⟨rfl, rfl, rfl⟩

/-- A sequence of operations keeps the sizing fields, and the recorded size when the
engine does. -/
theorem run_keeps_sizing {R : Type} (c : Consts) (env : Env R) (q : IOHIDEventQueue R)
    (ops : List Op) (hpres : env.PreservesCapacity) :
    (run c env q ops)._numEntries = q._numEntries ∧
      (run c env q ops)._entrySize = q._entrySize ∧
      env.queueSize (run c env q ops).ring = env.queueSize q.ring := by
  induction ops generalizing q with
  | nil => exact ⟨rfl, rfl, rfl⟩
  | cons op ops ih =>
    obtain ⟨h1, h2, h3⟩ := ih (step c env q op)
    obtain ⟨g1, g2, g3⟩ := step_keeps_sizing c env q op hpres
    exact ⟨h1.trans g1, h2.trans g2, h3.trans g3⟩

/-- A counter within 64 bits stays within 64 bits. -/
theorem run_errorCount_lt {R : Type} (c : Consts) (env : Env R) (q : IOHIDEventQueue R)
    (ops : List Op) (h : q._enqueueErrorCount < UINT64_MOD) :
    (run c env q ops)._enqueueErrorCount < UINT64_MOD := by
  induction ops generalizing q with
  | nil => exact h
  | cons op ops ih =>
    apply ih (step c env q op)
    rw [step_errorCount c env q op]
    split_ifs
    · exact Nat.mod_lt _ (by unfold UINT64_MOD; norm_num)
    · exact h

/-- Operations other than submit change nothing that `serialize` reads. -/
theorem run_no_submit {R : Type} (c : Consts) (env : Env R) (q : IOHIDEventQueue R)
    (ops : List Op) (hops : ∀ op ∈ ops, op.isSubmit = false) :
    run c env q ops = { q with _state := (run c env q ops)._state } := by
  induction ops generalizing q with
  | nil => rfl
  | cons op ops ih =>
    have hrest : ∀ o ∈ ops, o.isSubmit = false :=
      fun o ho => hops o (List.mem_cons_of_mem op ho)
    have hop := hops op (List.mem_cons_self op ops)
    have h := ih (step c env q op) hrest
    cases op with
    | submit data dataSize => simp [Op.isSubmit] at hop
    | describe s => exact h
    | setState state =>
      show run c env (step c env q (Op.setState state)) ops = _
      rw [h]
      rfl

/-- The record `serialize` builds does not depend on the state word. -/
theorem serialize_state_irrelevant {R : Type} (env : Env R) (q : IOHIDEventQueue R)
    (state : Nat) (s : OSSerialize) :
    serialize env { q with _state := state } s = serialize env q s := rfl

/-- A queue returned by `withCapacity` is a fresh object around the ring the engine
initialised with the given size. -/
theorem withCapacity_some {R : Type} (env : Env R) (size : Nat) (q : IOHIDEventQueue R)
    (calls : List Call) (h : withCapacity env size = (some q, calls)) :
    ∃ r, env.initWithCapacity size = some r ∧
      q = { ring := r, _state := 0, _numEntries := 0, _entrySize := 0,
            _enqueueErrorCount := 0 } := by
  unfold withCapacity at h
  cases hnew : env.newQueue
  · simp [hnew] at h
  · cases hinit : env.initWithCapacity size with
    | none => simp [hnew, hinit] at h
    | some r =>
      simp only [hnew, hinit, if_true, Prod.mk.injEq, Option.some.injEq] at h
      exact ⟨r, rfl, h.1.symm⟩

/-- A queue returned by `withEntries` passed the guard and is a fresh object around the
ring initialised with the clamped product, carrying the two arguments. -/
theorem withEntries_some {R : Type} (c : Consts) (env : Env R) (n e : Nat)
    (q : IOHIDEventQueue R) (calls : List Call)
    (hpol : c.HID_QUEUE_CAPACITY_MIN ≤ c.HID_QUEUE_CAPACITY_MAX_ENTITLED)
    (h : withEntries c env n e = Except.ok (some q, calls)) :
    0 < e ∧ n * e ≤ UINT32_MAX ∧
      ∃ r, env.initWithCapacity
          (clamp (n * e) c.HID_QUEUE_CAPACITY_MIN c.HID_QUEUE_CAPACITY_MAX_ENTITLED) = some r ∧
        q = { ring := r, _state := 0, _numEntries := n, _entrySize := e,
              _enqueueErrorCount := 0 } := by
  have he : 0 < e := by
    rcases Nat.eq_zero_or_pos e with h0 | h0
    · subst h0
      simp [withEntries] at h
    · exact h0
  have hprod : n * e ≤ UINT32_MAX := by
    by_contra hcon
    have hov : UINT32_MAX < n * e := by omega
    have hguard : n > UINT32_MAX / e := (guard_iff_product_exceeds n e he).mpr hov
    have he0 : e ≠ 0 := by omega
    simp [withEntries, he0, hguard] at h
  refine ⟨he, hprod, ?_⟩
  rw [withEntries_of_guard c env n e he hprod hpol] at h
  rcases hcap : withCapacity env
      (clamp (n * e) c.HID_QUEUE_CAPACITY_MIN c.HID_QUEUE_CAPACITY_MAX_ENTITLED)
    with ⟨qo, cs⟩
  rw [hcap] at h
  cases qo with
  | none => simp at h
  | some q0 =>
    obtain ⟨r, hr, hq0⟩ := withCapacity_some env _ q0 cs hcap
    refine ⟨r, hr, ?_⟩
    simp only [Except.ok.injEq, Prod.mk.injEq, Option.some.injEq] at h
    rw [← h.1, hq0]

/-! ## The record of a describe call -/

/-- C11, as stated, fails when the allocator fails: on the queue built by
`withEntries 5 16`, a describe call in a fresh context whose dictionary cannot be
allocated returns false and reports no field, and one in which the number for
`numEntries` cannot be allocated reports the other five fields only. -/
theorem describe_needs_allocation :
    withEntries sampleConsts (sampleEnv true UINT32_MAX) 5 16 =
        Except.ok (some { ring := { queueSize := 16384, used := 0 }, _state := 0,
                          _numEntries := 5, _entrySize := 16, _enqueueErrorCount := 0 },
                   [Call.newQueue, Call.initWithCapacity 16384]) ∧
      serialize (sampleEnv true UINT32_MAX)
          { ring := { queueSize := 16384, used := 0 }, _state := 0,
            _numEntries := 5, _entrySize := 16, _enqueueErrorCount := 0 }
          serializeNoDictionary = (false, none) ∧
      serialize (sampleEnv true UINT32_MAX)
          { ring := { queueSize := 16384, used := 0 }, _state := 0,
            _numEntries := 5, _entrySize := 16, _enqueueErrorCount := 0 }
          (serializeWithout "numEntries") =
        (true, some [("head", { value := 0, bits := 32 }),
                     ("tail", { value := 0, bits := 32 }),
                     ("EnqueueErrorCount", { value := 0, bits := 64 }),
                     ("QueueSize", { value := 16384, bits := 64 }),
                     ("entrySize", { value := 16, bits := 64 })]) := by
  refine ⟨rfl, by decide, by decide⟩

/-- C11, amended: for a queue built by a successful `withEntries n e` and operated on
afterwards in any way, a describe call in a fresh context in which the dictionary and the
six numbers can be allocated hands to the serializer the record with `numEntries = n`,
`entrySize = e`, queue size `clamp (n * e) MIN MAX_ENTITLED`, the current head and tail of
the ring and the current error count. -/
theorem describe_reports {R : Type} (c : Consts) (env : Env R) (n e : Nat)
    (q0 : IOHIDEventQueue R) (calls : List Call) (ops : List Op) (s : OSSerialize)
    (hbuilt : withEntries c env n e = Except.ok (some q0, calls))
    (hpol : c.HID_QUEUE_CAPACITY_MIN ≤ c.HID_QUEUE_CAPACITY_MAX_ENTITLED)
    (hmax : c.HID_QUEUE_CAPACITY_MAX_ENTITLED ≤ UINT32_MAX) (he32 : e ≤ UINT32_MAX)
    (hrec : env.RecordsCapacity) (hpres : env.PreservesCapacity)
    (hhead : env.head (run c env q0 ops).ring ≤ UINT32_MAX)
    (htail : env.tail (run c env q0 ops).ring ≤ UINT32_MAX)
    (hfresh : s.previouslySerialized = false) (hdict : s.dictWithCapacity = true)
    (hnum : ∀ key, s.numberAllocated key = true) :
    ∃ dict : OSDictionary,
      serialize env (run c env q0 ops) s = (s.dictSerialize dict, some dict) ∧
      dict =
        [("head", { value := env.head (run c env q0 ops).ring, bits := 32 }),
         ("tail", { value := env.tail (run c env q0 ops).ring, bits := 32 }),
         ("EnqueueErrorCount",
            { value := (run c env q0 ops)._enqueueErrorCount, bits := 64 }),
         ("QueueSize",
            { value := clamp (n * e) c.HID_QUEUE_CAPACITY_MIN
                c.HID_QUEUE_CAPACITY_MAX_ENTITLED, bits := 64 }),
         ("numEntries", { value := n, bits := 64 }),
         ("entrySize", { value := e, bits := 64 })] := by
  obtain ⟨he, hprod, r, hinit, hq0⟩ := withEntries_some c env n e q0 calls hpol hbuilt
  obtain ⟨hn, hes, hsize⟩ := run_keeps_sizing c env q0 ops hpres
  have hcount : (run c env q0 ops)._enqueueErrorCount < UINT64_MOD :=
    run_errorCount_lt c env q0 ops (by rw [hq0]; unfold UINT64_MOD; norm_num)
  have hq0n : q0._numEntries = n := by rw [hq0]
  have hq0e : q0._entrySize = e := by rw [hq0]
  have hq0s : env.queueSize q0.ring =
      clamp (n * e) c.HID_QUEUE_CAPACITY_MIN c.HID_QUEUE_CAPACITY_MAX_ENTITLED := by
    rw [hq0]
    exact hrec _ r hinit
  have hclamp : clamp (n * e) c.HID_QUEUE_CAPACITY_MIN c.HID_QUEUE_CAPACITY_MAX_ENTITLED
      ≤ UINT32_MAX := by
    unfold clamp
    split_ifs <;> omega
  have hnle : n ≤ UINT32_MAX := by
    have : n * 1 ≤ n * e := Nat.mul_le_mul_left n he
    omega
  refine ⟨_, serialize_fresh env (run c env q0 ops) s hfresh hdict, ?_⟩
  have hall : (fun p : String × OSNumber => s.numberAllocated p.1) = fun _ => true := by
    funext p
    exact hnum p.1
  rw [hall, List.filter_true]
  unfold UINT32_MAX at hhead htail hclamp hnle he32
  unfold UINT64_MOD at hcount
  simp only [fullRecord, OSNumber.withNumber, hn, hes, hsize, hq0n, hq0e, hq0s]
  rw [Nat.mod_eq_of_lt (show env.head (run c env q0 ops).ring < 2 ^ 32 by omega),
    Nat.mod_eq_of_lt (show env.tail (run c env q0 ops).ring < 2 ^ 32 by omega),
    Nat.mod_eq_of_lt (show (run c env q0 ops)._enqueueErrorCount < 2 ^ 64 by omega),
    Nat.mod_eq_of_lt (show clamp (n * e) c.HID_QUEUE_CAPACITY_MIN
      c.HID_QUEUE_CAPACITY_MAX_ENTITLED < 2 ^ 64 by omega),
    Nat.mod_eq_of_lt (show n < 2 ^ 64 by omega),
    Nat.mod_eq_of_lt (show e < 2 ^ 64 by omega)]

/-- Witness for the amended C11: the queue built by `withEntries 5 16`, started, after
one accepted one-byte event, reports `numEntries = 5`, `entrySize = 16` and the queue
size `clamp 80 16384 3145728 = 16384`. -/
theorem describe_reports_witness :
    ∃ dict : OSDictionary,
      serialize (sampleEnv true UINT32_MAX)
          (run sampleConsts (sampleEnv true UINT32_MAX)
            { ring := { queueSize := 16384, used := 0 }, _state := 0,
              _numEntries := 5, _entrySize := 16, _enqueueErrorCount := 0 }
            [Op.setState 1, Op.submit [7] 1])
          freshSerialize = (freshSerialize.dictSerialize dict, some dict) ∧
      dict =
        [("head", { value := 0, bits := 32 }),
         ("tail", { value := 1, bits := 32 }),
         ("EnqueueErrorCount", { value := 0, bits := 64 }),
         ("QueueSize", { value := clamp (5 * 16) 16384 3145728, bits := 64 }),
         ("numEntries", { value := 5, bits := 64 }),
         ("entrySize", { value := 16, bits := 64 })] :=
  describe_reports sampleConsts (sampleEnv true UINT32_MAX) 5 16
    { ring := { queueSize := 16384, used := 0 }, _state := 0,
      _numEntries := 5, _entrySize := 16, _enqueueErrorCount := 0 }
    [Call.newQueue, Call.initWithCapacity 16384] [Op.setState 1, Op.submit [7] 1]
    freshSerialize rfl (by decide) (by decide) (by decide)
    (sampleEnv_recordsCapacity true UINT32_MAX)
    (by
      intro r data dataSize
      simp only [sampleEnv]
      split_ifs <;> rfl)
    (by decide) (by decide) rfl rfl (fun _ => rfl)

/-- C12, as stated, fails when the allocator fails: in a context that has not captured
the queue, a first describe call whose dictionary cannot be allocated returns false and
emits no record (the second call in that context still answers true without a record). -/
theorem first_describe_can_emit_nothing :
    (serializeIn (sampleEnv true 8)
        { ring := { queueSize := 8, used := 3 }, _state := 1, _numEntries := 0,
          _entrySize := 0, _enqueueErrorCount := 2 }
        41 [] serializeNoDictionary [42, 43]).1 = (false, none) ∧
      (serializeIn (sampleEnv true 8)
        { ring := { queueSize := 8, used := 3 }, _state := 1, _numEntries := 0,
          _entrySize := 0, _enqueueErrorCount := 2 }
        41
        (serializeIn (sampleEnv true 8)
          { ring := { queueSize := 8, used := 3 }, _state := 1, _numEntries := 0,
            _entrySize := 0, _enqueueErrorCount := 2 }
          41 [] serializeNoDictionary [42, 43]).2
        freshSerialize [44]).1 = (true, none) := by
  refine ⟨by decide, by decide⟩

/-- After a call of `serialize` in a context, the context has captured the queue. -/
theorem serializeIn_captures {R : Type} (env : Env R) (q : IOHIDEventQueue R)
    (self : Nat) (tags : List Nat) (s : OSSerialize) (captured : List Nat) :
    self ∈ (serializeIn env q self tags s captured).2 := by
  have h : self ∈ (previouslySerialized tags self).2 := by
    unfold previouslySerialized
    split_ifs with hmem
    · exact hmem
    · simp
  unfold serializeIn
  simp only
  split_ifs
  · exact List.mem_append_left _ h
  · exact h

/-- C12, amended: when `serialize` is called twice on the same queue in the same
context, the first call (if the context had not captured the queue, and the dictionary
and the six numbers can be allocated) hands the full record to the serializer, and the
second call returns true without building any record, whatever happened in the first; in
general, whenever the context answers that the queue was serialized before, `serialize`
returns true and builds nothing. -/
theorem serialize_twice {R : Type} (env : Env R) (q : IOHIDEventQueue R) (self : Nat)
    (tags : List Nat) (s1 s2 : OSSerialize) (cap1 cap2 : List Nat) :
    (self ∉ tags → s1.dictWithCapacity = true → (∀ key, s1.numberAllocated key = true) →
        (serializeIn env q self tags s1 cap1).1 =
          (s1.dictSerialize (fullRecord env q), some (fullRecord env q))) ∧
      (serializeIn env q self (serializeIn env q self tags s1 cap1).2 s2 cap2).1
        = (true, none) ∧
      (∀ s : OSSerialize, s.previouslySerialized = true →
        serialize env q s = (true, none)) := by
  refine ⟨?_, ?_, fun s hs => serialize_captured env q s hs⟩
  · intro hnot hdict hnum
    have hall : (fun p : String × OSNumber => s1.numberAllocated p.1) = fun _ => true := by
      funext p
      exact hnum p.1
    have h := serialize_fresh env q
      { s1 with previouslySerialized := false } rfl hdict
    simp only [hall, List.filter_true] at h
    simp only [serializeIn, previouslySerialized, hnot, if_false]
    exact h
  · have hmem := serializeIn_captures env q self tags s1 cap1
    generalize (serializeIn env q self tags s1 cap1).2 = tags2 at hmem
    simp only [serializeIn, previouslySerialized, hmem, if_true]
    exact serialize_captured env q _ rfl

/-- Witness for the amended C12: a first call in an empty context emits the six fields,
a second call in the resulting context emits none. -/
theorem serialize_twice_witness :
    (serializeIn (sampleEnv true 8)
        { ring := { queueSize := 8, used := 3 }, _state := 1, _numEntries := 0,
          _entrySize := 0, _enqueueErrorCount := 2 }
        41 [] freshSerialize [42, 43]).1 =
      (true, some (fullRecord (sampleEnv true 8)
        { ring := { queueSize := 8, used := 3 }, _state := 1, _numEntries := 0,
          _entrySize := 0, _enqueueErrorCount := 2 })) :=
  (serialize_twice (sampleEnv true 8)
    { ring := { queueSize := 8, used := 3 }, _state := 1, _numEntries := 0,
      _entrySize := 0, _enqueueErrorCount := 2 }
    41 [] freshSerialize freshSerialize [42, 43] [44]).1
    (by decide) rfl (fun _ => rfl)

/-- C13: a describe call leaves the queue exactly as it was (state bits, error count,
sizing fields and ring alike); after any operations other than submit, a describe call
with the same allocator outcomes gives the same result as before them; and whatever the
allocator outcomes of two such calls, every field both calls emit has the same value in
both. -/
theorem describe_idempotent {R : Type} (c : Consts) (env : Env R) (q : IOHIDEventQueue R)
    (s s1 s2 : OSSerialize) (ops : List Op) (hops : ∀ op ∈ ops, op.isSubmit = false) :
    step c env q (Op.describe s) = q ∧
      serialize env (run c env q ops) s = serialize env q s ∧
      (∀ (d1 d2 : OSDictionary) (k : String) (v1 v2 : OSNumber),
        (serialize env q s1).2 = some d1 →
        (serialize env (run c env q ops) s2).2 = some d2 →
        (k, v1) ∈ d1 → (k, v2) ∈ d2 → v1 = v2) := by
  have hrun := run_no_submit c env q ops hops
  have hsame : ∀ t : OSSerialize, serialize env (run c env q ops) t = serialize env q t := by
    intro t
    rw [hrun]
    exact serialize_state_irrelevant env q _ t
  refine ⟨rfl, hsame s, ?_⟩
  intro d1 d2 k v1 v2 h1 h2 hk1 hk2
  rw [hsame s2] at h2
  exact fullRecord_value_unique env q k v1 v2
    (mem_fullRecord_of_serialize env q s1 d1 h1 _ hk1)
    (mem_fullRecord_of_serialize env q s2 d2 h2 _ hk2)

/-- Witness for C13: a describe call, a describe call and a change of the state word later,
a further describe call gives the same result. -/
theorem describe_idempotent_witness :
    serialize (sampleEnv true 8)
        (run sampleConsts (sampleEnv true 8)
          { ring := { queueSize := 8, used := 3 }, _state := 1, _numEntries := 0,
            _entrySize := 0, _enqueueErrorCount := 2 }
          [Op.describe freshSerialize, Op.setState 3])
        freshSerialize =
      serialize (sampleEnv true 8)
        { ring := { queueSize := 8, used := 3 }, _state := 1, _numEntries := 0,
          _entrySize := 0, _enqueueErrorCount := 2 }
        freshSerialize :=
  (describe_idempotent sampleConsts (sampleEnv true 8)
    { ring := { queueSize := 8, used := 3 }, _state := 1, _numEntries := 0,
      _entrySize := 0, _enqueueErrorCount := 2 }
    freshSerialize freshSerialize (serializeWithout "tail")
    [Op.describe freshSerialize, Op.setState 3]
    (by
      intro op hop
      simp only [List.mem_cons, List.mem_singleton, List.not_mem_nil, or_false] at hop
      rcases hop with rfl | rfl <;> rfl)).2.1

/-- C14, as stated, fails on the names of two keys: with every allocation succeeding the
record has the keys `EnqueueErrorCount` and `QueueSize`, and no key `enqueueErrorCount`
or `queueSizeBytes`; and when a number cannot be allocated its key is missing. -/
theorem emitted_keys_differ :
    (serialize (sampleEnv true 8)
        { ring := { queueSize := 8, used := 3 }, _state := 1, _numEntries := 4,
          _entrySize := 2, _enqueueErrorCount := 6 }
        freshSerialize).2 =
      some [("head", { value := 0, bits := 32 }),
            ("tail", { value := 3, bits := 32 }),
            ("EnqueueErrorCount", { value := 6, bits := 64 }),
            ("QueueSize", { value := 8, bits := 64 }),
            ("numEntries", { value := 4, bits := 64 }),
            ("entrySize", { value := 2, bits := 64 })] ∧
      (∀ dict, (serialize (sampleEnv true 8)
          { ring := { queueSize := 8, used := 3 }, _state := 1, _numEntries := 4,
            _entrySize := 2, _enqueueErrorCount := 6 }
          freshSerialize).2 = some dict →
        "enqueueErrorCount" ∉ dict.map Prod.fst ∧ "queueSizeBytes" ∉ dict.map Prod.fst) ∧
      (serialize (sampleEnv true 8)
        { ring := { queueSize := 8, used := 3 }, _state := 1, _numEntries := 4,
          _entrySize := 2, _enqueueErrorCount := 6 }
        (serializeWithout "tail")).2 =
      some [("head", { value := 0, bits := 32 }),
            ("EnqueueErrorCount", { value := 6, bits := 64 }),
            ("QueueSize", { value := 8, bits := 64 }),
            ("numEntries", { value := 4, bits := 64 }),
            ("entrySize", { value := 2, bits := 64 })] := by
  have h : (serialize (sampleEnv true 8)
        { ring := { queueSize := 8, used := 3 }, _state := 1, _numEntries := 4,
          _entrySize := 2, _enqueueErrorCount := 6 }
        freshSerialize).2 =
      some [("head", { value := 0, bits := 32 }),
            ("tail", { value := 3, bits := 32 }),
            ("EnqueueErrorCount", { value := 6, bits := 64 }),
            ("QueueSize", { value := 8, bits := 64 }),
            ("numEntries", { value := 4, bits := 64 }),
            ("entrySize", { value := 2, bits := 64 })] := by decide
  refine ⟨h, ?_, by decide⟩
  intro dict hd
  rw [h] at hd
  cases hd
  constructor <;> decide

/-- C14, amended: for a queue the context has not captured, when the dictionary can be
allocated, the record handed to the serializer is a flat mapping whose keys, in order,
are those of `head`, `tail`, `EnqueueErrorCount`, `QueueSize`, `numEntries` and
`entrySize` whose number could be allocated (all six when every allocation succeeds);
`head` and `tail` are 32-bit numbers and the other four 64-bit numbers. -/
theorem record_keys {R : Type} (env : Env R) (q : IOHIDEventQueue R) (s : OSSerialize)
    (hfresh : s.previouslySerialized = false) (hdict : s.dictWithCapacity = true) :
    ∃ dict : OSDictionary,
      (serialize env q s).2 = some dict ∧
      dict.map (fun p => (p.1, p.2.bits)) =
        ([("head", 32), ("tail", 32), ("EnqueueErrorCount", 64), ("QueueSize", 64),
          ("numEntries", 64), ("entrySize", 64)] : List (String × Nat)).filter
          (fun p => s.numberAllocated p.1) ∧
      ((∀ key, s.numberAllocated key = true) →
        dict.map (fun p => (p.1, p.2.bits)) =
          [("head", 32), ("tail", 32), ("EnqueueErrorCount", 64), ("QueueSize", 64),
           ("numEntries", 64), ("entrySize", 64)]) := by
  have hkeys : ((fullRecord env q).filter (fun p => s.numberAllocated p.1)).map
        (fun p => (p.1, p.2.bits)) =
      ([("head", 32), ("tail", 32), ("EnqueueErrorCount", 64), ("QueueSize", 64),
        ("numEntries", 64), ("entrySize", 64)] : List (String × Nat)).filter
        (fun p => s.numberAllocated p.1) := by
    cases h1 : s.numberAllocated "head" <;> cases h2 : s.numberAllocated "tail" <;>
      cases h3 : s.numberAllocated "EnqueueErrorCount" <;>
      cases h4 : s.numberAllocated "QueueSize" <;>
      cases h5 : s.numberAllocated "numEntries" <;>
      cases h6 : s.numberAllocated "entrySize" <;>
      simp [fullRecord, OSNumber.withNumber, List.filter, h1, h2, h3, h4, h5, h6]
  refine ⟨_, by rw [serialize_fresh env q s hfresh hdict], hkeys, ?_⟩
  intro hnum
  rw [hkeys]
  simp [List.filter, hnum]

/-- Witness for the amended C14: with every allocation succeeding, the six keys. -/
theorem record_keys_witness :
    ∃ dict : OSDictionary,
      (serialize (sampleEnv true 8)
        { ring := { queueSize := 8, used := 3 }, _state := 1, _numEntries := 4,
          _entrySize := 2, _enqueueErrorCount := 6 } freshSerialize).2 = some dict ∧
      dict.map (fun p => (p.1, p.2.bits)) =
        ([("head", 32), ("tail", 32), ("EnqueueErrorCount", 64), ("QueueSize", 64),
          ("numEntries", 64), ("entrySize", 64)] : List (String × Nat)).filter
          (fun p => freshSerialize.numberAllocated p.1) ∧
      ((∀ key, freshSerialize.numberAllocated key = true) →
        dict.map (fun p => (p.1, p.2.bits)) =
          [("head", 32), ("tail", 32), ("EnqueueErrorCount", 64), ("QueueSize", 64),
           ("numEntries", 64), ("entrySize", 64)]) :=
  record_keys (sampleEnv true 8)
    { ring := { queueSize := 8, used := 3 }, _state := 1, _numEntries := 4,
      _entrySize := 2, _enqueueErrorCount := 6 } freshSerialize rfl rfl

/-! ## Capacity as an invariant, and the order of check and product -/

/-- C15, as stated, fails for `withCapacity`: with a minimum of 16384 and a maximum of
3145728 bytes it returns queues of capacity zero, of capacity one, and of capacity
4194304. -/
theorem withCapacity_outside_bounds :
    (withCapacity (sampleEnv true 4194304) 0).1 =
        some { ring := { queueSize := 0, used := 0 }, _state := 0, _numEntries := 0,
               _entrySize := 0, _enqueueErrorCount := 0 } ∧
      (withCapacity (sampleEnv true 4194304) 1).1 =
        some { ring := { queueSize := 1, used := 0 }, _state := 0, _numEntries := 0,
               _entrySize := 0, _enqueueErrorCount := 0 } ∧
      (1 : Nat) < sampleConsts.HID_QUEUE_CAPACITY_MIN ∧
      (withCapacity (sampleEnv true 4194304) 4194304).1 =
        some { ring := { queueSize := 4194304, used := 0 }, _state := 0, _numEntries := 0,
               _entrySize := 0, _enqueueErrorCount := 0 } ∧
      sampleConsts.HID_QUEUE_CAPACITY_MAX_ENTITLED < 4194304 := by
  refine ⟨?_, ?_, ?_, ?_, ?_⟩ <;> decide

/-- C15, amended: with a positive minimum not above the maximum, and a ring engine that
records the size it is given and keeps it when it enqueues, every queue returned by
`withEntries` has a capacity that is non-zero, at least `HID_QUEUE_CAPACITY_MIN` and at
most `HID_QUEUE_CAPACITY_MAX_ENTITLED`; a queue returned by `withCapacity` has exactly
the requested size as its capacity; and no later sequence of submit and describe calls
and state changes alters the capacity of either. -/
theorem capacity_invariant {R : Type} (c : Consts) (env : Env R) (n e size : Nat)
    (q0 q1 : IOHIDEventQueue R) (calls0 calls1 : List Call) (ops : List Op)
    (hpol : c.HID_QUEUE_CAPACITY_MIN ≤ c.HID_QUEUE_CAPACITY_MAX_ENTITLED)
    (hmin : 0 < c.HID_QUEUE_CAPACITY_MIN)
    (hrec : env.RecordsCapacity) (hpres : env.PreservesCapacity) :
    (withEntries c env n e = Except.ok (some q0, calls0) →
        0 < env.queueSize q0.ring ∧
        c.HID_QUEUE_CAPACITY_MIN ≤ env.queueSize q0.ring ∧
        env.queueSize q0.ring ≤ c.HID_QUEUE_CAPACITY_MAX_ENTITLED ∧
        env.queueSize (run c env q0 ops).ring = env.queueSize q0.ring) ∧
      (withCapacity env size = (some q1, calls1) →
        env.queueSize q1.ring = size ∧
        env.queueSize (run c env q1 ops).ring = size) := by
  constructor
  · intro h
    obtain ⟨_, _, r, hinit, hq0⟩ := withEntries_some c env n e q0 calls0 hpol h
    have hsize : env.queueSize q0.ring =
        clamp (n * e) c.HID_QUEUE_CAPACITY_MIN c.HID_QUEUE_CAPACITY_MAX_ENTITLED := by
      rw [hq0]
      exact hrec _ r hinit
    have hlo : c.HID_QUEUE_CAPACITY_MIN ≤
        clamp (n * e) c.HID_QUEUE_CAPACITY_MIN c.HID_QUEUE_CAPACITY_MAX_ENTITLED := by
      unfold clamp
      split_ifs <;> omega
    have hhi : clamp (n * e) c.HID_QUEUE_CAPACITY_MIN c.HID_QUEUE_CAPACITY_MAX_ENTITLED
        ≤ c.HID_QUEUE_CAPACITY_MAX_ENTITLED := by
      unfold clamp
      split_ifs <;> omega
    refine ⟨by omega, by omega, by omega, (run_keeps_sizing c env q0 ops hpres).2.2⟩
  · intro h
    obtain ⟨r, hinit, hq1⟩ := withCapacity_some env size q1 calls1 h
    have hsize : env.queueSize q1.ring = size := by
      rw [hq1]
      exact hrec _ r hinit
    exact ⟨hsize, ((run_keeps_sizing c env q1 ops hpres).2.2).trans hsize⟩

/-- The sample engine keeps its recorded size when it enqueues. -/
theorem sampleEnv_preservesCapacity (newQueue : Bool) (limit : Nat) :
    (sampleEnv newQueue limit).PreservesCapacity := by
  intro r data dataSize
  simp only [sampleEnv]
  split_ifs <;> rfl

/-- Witness for the amended C15: the queue built by `withEntries 5 16`, a started state
and two submits later, still has the capacity 16384. -/
theorem capacity_invariant_witness :
    (0 < 16384 ∧ 16384 ≤ 16384 ∧ 16384 ≤ 3145728 ∧
      (sampleEnv true UINT32_MAX).queueSize
        (run sampleConsts (sampleEnv true UINT32_MAX)
          { ring := { queueSize := 16384, used := 0 }, _state := 0,
            _numEntries := 5, _entrySize := 16, _enqueueErrorCount := 0 }
          [Op.setState 1, Op.submit [7] 1, Op.describe freshSerialize,
           Op.submit [] 20000]).ring = 16384) ∧
      ((sampleEnv true UINT32_MAX).queueSize
          ({ ring := { queueSize := 100, used := 0 }, _state := 0, _numEntries := 0,
             _entrySize := 0, _enqueueErrorCount := 0 } : IOHIDEventQueue SampleRing).ring
          = 100 ∧
        (sampleEnv true UINT32_MAX).queueSize
          (run sampleConsts (sampleEnv true UINT32_MAX)
            { ring := { queueSize := 100, used := 0 }, _state := 0, _numEntries := 0,
              _entrySize := 0, _enqueueErrorCount := 0 }
            [Op.setState 1, Op.submit [7] 1, Op.describe freshSerialize,
             Op.submit [] 20000]).ring = 100) :=
  have h := capacity_invariant sampleConsts (sampleEnv true UINT32_MAX) 5 16 100
    { ring := { queueSize := 16384, used := 0 }, _state := 0,
      _numEntries := 5, _entrySize := 16, _enqueueErrorCount := 0 }
    { ring := { queueSize := 100, used := 0 }, _state := 0, _numEntries := 0,
      _entrySize := 0, _enqueueErrorCount := 0 }
    [Call.newQueue, Call.initWithCapacity 16384] [Call.newQueue, Call.initWithCapacity 100]
    [Op.setState 1, Op.submit [7] 1, Op.describe freshSerialize, Op.submit [] 20000]
    (by decide) (by decide) (sampleEnv_recordsCapacity true UINT32_MAX)
    (sampleEnv_preservesCapacity true UINT32_MAX)
  ⟨h.1 rfl, h.2 rfl⟩

/-- C16: for `entrySize > 0` the guard `numEntries > UINT32_MAX / entrySize` is true
exactly when the exact product exceeds `UINT32_MAX`; so when the guard passes, the 32-bit
product formed before the guard is the exact product, and `withEntries` gives the same
result and makes the same calls as the reference that checks first and multiplies
afterwards. -/
theorem guard_before_product {R : Type} (c : Consts) (env : Env R) (n e : Nat)
    (he : 0 < e) :
    (n > UINT32_MAX / e ↔ UINT32_MAX < n * e) ∧
      (¬ n > UINT32_MAX / e → (n * e) % 2 ^ 32 = n * e) ∧
      withEntries c env n e = withEntriesCheckFirst c env n e := by
  have hiff := guard_iff_product_exceeds n e he
  have hmod : ¬ n > UINT32_MAX / e → (n * e) % 2 ^ 32 = n * e := by
    intro hg
    apply product_mod_eq
    by_contra hcon
    exact hg (hiff.mpr (by omega))
  refine ⟨hiff, hmod, ?_⟩
  have he0 : e ≠ 0 := by omega
  by_cases hg : n > UINT32_MAX / e
  · simp [withEntries, withEntriesCheckFirst, he0, hg]
  · simp only [withEntries, withEntriesCheckFirst, he0, hg, if_false, hmod hg]

/-- Witness for C16: 65536 entries of 65535 bytes pass the guard and are not wrapped. -/
theorem guard_before_product_witness :
    (65536 > UINT32_MAX / 65535 ↔ UINT32_MAX < 65536 * 65535) ∧
      (¬ 65536 > UINT32_MAX / 65535 → (65536 * 65535) % 2 ^ 32 = 65536 * 65535) ∧
      withEntries sampleConsts (sampleEnv true UINT32_MAX) 65536 65535 =
        withEntriesCheckFirst sampleConsts (sampleEnv true UINT32_MAX) 65536 65535 :=
  guard_before_product sampleConsts (sampleEnv true UINT32_MAX) 65536 65535 (by decide)

/-- C17: for `entrySize > 0`, with a positive minimum not above the maximum, when the
object can be allocated and the ring initialisation succeeds, `withEntries 0 entrySize`
returns a queue whose ring was initialised with exactly `HID_QUEUE_CAPACITY_MIN` bytes,
a capacity that is not zero, with `numEntries` recorded as 0 and `entrySize` as given. -/
theorem withEntries_zero_entries {R : Type} (c : Consts) (env : Env R) (e : Nat) (r : R)
    (he : 0 < e)
    (hpol : c.HID_QUEUE_CAPACITY_MIN ≤ c.HID_QUEUE_CAPACITY_MAX_ENTITLED)
    (hmin : 0 < c.HID_QUEUE_CAPACITY_MIN)
    (hnew : env.newQueue = true)
    (hinit : env.initWithCapacity c.HID_QUEUE_CAPACITY_MIN = some r)
    (hrec : env.RecordsCapacity) :
    withEntries c env 0 e =
        Except.ok (some { ring := r, _state := 0, _numEntries := 0, _entrySize := e,
                          _enqueueErrorCount := 0 },
                   [Call.newQueue, Call.initWithCapacity c.HID_QUEUE_CAPACITY_MIN]) ∧
      env.queueSize r = c.HID_QUEUE_CAPACITY_MIN ∧ env.queueSize r ≠ 0 := by
  have hclamp : clamp (0 * e) c.HID_QUEUE_CAPACITY_MIN c.HID_QUEUE_CAPACITY_MAX_ENTITLED
      = c.HID_QUEUE_CAPACITY_MIN := by
    unfold clamp
    split_ifs <;> omega
  have hprod : 0 * e ≤ UINT32_MAX := by
    unfold UINT32_MAX
    omega
  have hsize := hrec _ r hinit
  refine ⟨?_, hsize, by omega⟩
  rw [withEntries_of_guard c env 0 e he hprod hpol, hclamp,
    withCapacity_of_init env _ r hnew hinit]

/-- Witness for C17: no entries of 16 bytes give the minimum of 16384 bytes. -/
theorem withEntries_zero_entries_witness :
    withEntries sampleConsts (sampleEnv true UINT32_MAX) 0 16 =
        Except.ok (some { ring := { queueSize := 16384, used := 0 }, _state := 0,
                          _numEntries := 0, _entrySize := 16, _enqueueErrorCount := 0 },
                   [Call.newQueue, Call.initWithCapacity 16384]) ∧
      (sampleEnv true UINT32_MAX).queueSize { queueSize := 16384, used := 0 } = 16384 ∧
      (sampleEnv true UINT32_MAX).queueSize { queueSize := 16384, used := 0 } ≠ 0 :=
  withEntries_zero_entries sampleConsts (sampleEnv true UINT32_MAX) 16
    { queueSize := 16384, used := 0 } (by decide) (by decide) (by decide) rfl (by decide)
    (sampleEnv_recordsCapacity true UINT32_MAX)

/-! ## The sizing fields and the admission logic -/

/-- C18: `enqueue` does not consult the sizing fields. For two queues with the same
state word, error count and ring, whatever their `numEntries` and `entrySize`, `enqueue`
of the same event returns the same result, makes the same calls (engine call, counter
increment, notification) and leaves the same ring, error count and state word; each
queue keeps its own sizing fields. -/
theorem enqueue_ignores_sizing {R : Type} (c : Consts) (env : Env R)
    (q1 q2 : IOHIDEventQueue R) (data : List Nat) (dataSize : Nat)
    (hring : q1.ring = q2.ring) (hstate : q1._state = q2._state)
    (hcount : q1._enqueueErrorCount = q2._enqueueErrorCount) :
    enqueue c env q2 data dataSize =
      { ret := (enqueue c env q1 data dataSize).ret
        queue := { (enqueue c env q1 data dataSize).queue with
                   _numEntries := q2._numEntries, _entrySize := q2._entrySize }
        calls := (enqueue c env q1 data dataSize).calls } := by
  obtain ⟨ring1, state1, n1, e1, count1⟩ := q1
  obtain ⟨ring2, state2, n2, e2, count2⟩ := q2
  simp only at hring hstate hcount
  subst hring hstate hcount
  unfold enqueue
  by_cases h : (state1 &&& (c.kHIDQueueStarted ||| c.kHIDQueueDisabled))
      = c.kHIDQueueStarted
  · simp only [h, if_true]
    rcases hres : env.enqueue ring1 data dataSize with ⟨ok, r⟩
    cases ok <;> rfl
  · simp only [h, if_false]

/-- Witness for C18: two started queues over the same full ring, one sized as five
entries of sixteen bytes and one as nine of three, both reject the event alike. -/
theorem enqueue_ignores_sizing_witness :
    enqueue sampleConsts (sampleEnv true 8)
        { ring := { queueSize := 8, used := 8 }, _state := 1, _numEntries := 9,
          _entrySize := 3, _enqueueErrorCount := 2 } [7] 1 =
      { ret := (enqueue sampleConsts (sampleEnv true 8)
          { ring := { queueSize := 8, used := 8 }, _state := 1, _numEntries := 5,
            _entrySize := 16, _enqueueErrorCount := 2 } [7] 1).ret
        queue := { (enqueue sampleConsts (sampleEnv true 8)
          { ring := { queueSize := 8, used := 8 }, _state := 1, _numEntries := 5,
            _entrySize := 16, _enqueueErrorCount := 2 } [7] 1).queue with
            _numEntries := 9, _entrySize := 3 }
        calls := (enqueue sampleConsts (sampleEnv true 8)
          { ring := { queueSize := 8, used := 8 }, _state := 1, _numEntries := 5,
            _entrySize := 16, _enqueueErrorCount := 2 } [7] 1).calls } :=
  enqueue_ignores_sizing sampleConsts (sampleEnv true 8)
    { ring := { queueSize := 8, used := 8 }, _state := 1, _numEntries := 5,
      _entrySize := 16, _enqueueErrorCount := 2 }
    { ring := { queueSize := 8, used := 8 }, _state := 1, _numEntries := 9,
      _entrySize := 3, _enqueueErrorCount := 2 } [7] 1 rfl rfl rfl

/-- C19: `enqueue` never changes the state word, `numEntries` or `entrySize`: the object
afterwards is the object before with, at most, another ring and another error count; the
ring is the one before or the one the engine left, so that, with an engine that keeps its
recorded size when it enqueues, the recorded queue size is unchanged too. -/
theorem enqueue_frame {R : Type} (c : Consts) (env : Env R) (q : IOHIDEventQueue R)
    (data : List Nat) (dataSize : Nat) :
    (enqueue c env q data dataSize).queue._state = q._state ∧
      (enqueue c env q data dataSize).queue._numEntries = q._numEntries ∧
      (enqueue c env q data dataSize).queue._entrySize = q._entrySize ∧
      (enqueue c env q data dataSize).queue =
        { q with ring := (enqueue c env q data dataSize).queue.ring
                 _enqueueErrorCount :=
                   (enqueue c env q data dataSize).queue._enqueueErrorCount } ∧
      ((enqueue c env q data dataSize).queue.ring = q.ring ∨
        (enqueue c env q data dataSize).queue.ring
          = (env.enqueue q.ring data dataSize).2) ∧
      (env.PreservesCapacity →
        env.queueSize (enqueue c env q data dataSize).queue.ring
          = env.queueSize q.ring) := by
  have h := enqueue_queue_eq c env q data dataSize
  refine ⟨?_, ?_, ?_, h, enqueue_ring c env q data dataSize,
    fun hpres => enqueue_queueSize c env q data dataSize hpres⟩
  · rw [h]
  · rw [h]
  · rw [h]

/-- Witness for C19: a rejected event on a started queue over a full ring leaves the
recorded size at eight bytes. -/
theorem enqueue_frame_witness :
    (sampleEnv true 8).queueSize
        (enqueue sampleConsts (sampleEnv true 8)
          { ring := { queueSize := 8, used := 8 }, _state := 1, _numEntries := 5,
            _entrySize := 16, _enqueueErrorCount := 2 } [7] 1).queue.ring =
      (sampleEnv true 8).queueSize { queueSize := 8, used := 8 } :=
  (enqueue_frame sampleConsts (sampleEnv true 8)
    { ring := { queueSize := 8, used := 8 }, _state := 1, _numEntries := 5,
      _entrySize := 16, _enqueueErrorCount := 2 } [7] 1).2.2.2.2.2
    (sampleEnv_preservesCapacity true 8)

end HIDQueue
